import Mathlib

/-!
Formal model of the core utility layer of the oci-cloud-controller-manager
repository, file `pkg/csi-util/utils.go`:

* capacity resolution (`ExtractStorage`, `MaxOfInt` and the policy size
  constants),
* the per-volume exclusivity gate (`VolumeLocks` with `TryAcquire` and
  `Release`; the Go mutex only serializes the critical section, so the
  sequential state transformation is the faithful semantics),
* the Go standard-library IP machinery the file relies on (`net.ParseIP`
  with its IPv4 and IPv6 grammars, `IP.To4`, `IP.To16`, `IP.String`),
* iSCSI IPv4-to-IPv6 synthesis (`ConvertIscsiIpFromIpv4ToIpv6`),
* the FSS volume-handle parser (`ValidateFssId`, `ValidateDNSName`) and
  the address normalizer (`FormatValidIp`),
* node IP-family resolution (`GetNodeIpFamily` over the node's label map,
  `FormatValidIpStackInK8SConvention`, `strings.EqualFold`).

Go strings are modelled as `List Char`.  The functions of `utils.go` only
ever split strings at ASCII delimiters (`:`, `.`, `-`, `[`, `]`), so byte
indices and character indices induce identical decompositions and the
character-level model is faithful for every Unicode input.
-/

/-- Go strings, modelled as lists of characters. -/
abbrev Str := List Char

/-- Conversion from Lean string literals to the model's string type. -/
def toStr (s : String) : Str := s.data

/-! ## Capacity resolution: constants and `ExtractStorage` -/

/-- Modelled from the spec: `client.GiB` lives in `pkg/oci/client` which is
outside the sources in scope; the spec (§4.2) fixes the minimum policy bound
at 50 GiB in binary units, so `GiB = 2^30`. -/
def GiB : Int := 1024 * 1024 * 1024

/-- Modelled from the spec: `client.TiB`, binary units, `TiB = 2^40`
(the spec's 32 TiB maximum policy bound). -/
def TiB : Int := 1024 * GiB

/-- `MinimumVolumeSizeInBytes int64 = 50 * client.GiB`. -/
def MinimumVolumeSizeInBytes : Int := 50 * GiB

/-- `MaximumVolumeSizeInBytes int64 = 32 * client.TiB`. -/
def MaximumVolumeSizeInBytes : Int := 32 * TiB

/-- `defaultVolumeSizeInBytes int64 = MinimumVolumeSizeInBytes`. -/
def defaultVolumeSizeInBytes : Int := MinimumVolumeSizeInBytes

/-- The two `int64` fields of `csi.CapacityRange`; the getters
`GetRequiredBytes`/`GetLimitBytes` of the generated CSI type return the
stored value (0 when absent). -/
structure CapacityRange where
  RequiredBytes : Int
  LimitBytes : Int
deriving DecidableEq, Repr

/-- The three `fmt.Errorf` failures of `ExtractStorage`.  The Go code
renders the offending quantities through `FormatBytes` (a floating-point
pretty-printer); the error constructors carry the raw byte counts instead,
which identifies the same error cases without modelling float formatting. -/
inductive ExtractStorageError where
  | limitLessThanRequired (limit required : Int)
  | requiredExceedsMaximum (required maximum : Int)
  | limitExceedsMaximum (limit maximum : Int)
deriving DecidableEq, Repr

instance {ε α : Type} [DecidableEq ε] [DecidableEq α] :
    DecidableEq (Except ε α) := fun
  | .ok a, .ok b =>
    if h : a = b then isTrue (by rw [h])
    else isFalse (fun hh => h (Except.ok.inj hh))
  | .ok _, .error _ => isFalse (fun hh => Except.noConfusion hh)
  | .error _, .ok _ => isFalse (fun hh => Except.noConfusion hh)
  | .error a, .error b =>
    if h : a = b then isTrue (by rw [h])
    else isFalse (fun hh => h (Except.error.inj hh))

/-- `func MaxOfInt(a, b int64) int64`. -/
def MaxOfInt (a b : Int) : Int := if a > b then a else b

/-- `func ExtractStorage(capRange *csi.CapacityRange) (int64, error)`,
branch for branch, including the branches after the
`if limitSet` return, which the Go control flow can never reach.
All comparisons are `int64` comparisons; no arithmetic is performed, so
`Int` models `int64` exactly on every representable input. -/
def ExtractStorage (capRange : Option CapacityRange) :
    Except ExtractStorageError Int :=
  match capRange with
  | none => Except.ok defaultVolumeSizeInBytes
  | some cr =>
    let requiredBytes := cr.RequiredBytes
    let limitBytes := cr.LimitBytes
    if ¬ 0 < requiredBytes ∧ ¬ 0 < limitBytes then
      Except.ok defaultVolumeSizeInBytes
    else if 0 < requiredBytes ∧ 0 < limitBytes ∧ limitBytes < requiredBytes then
      Except.error (ExtractStorageError.limitLessThanRequired limitBytes requiredBytes)
    else if 0 < requiredBytes ∧ ¬ 0 < limitBytes then
      Except.ok (MaxOfInt requiredBytes MinimumVolumeSizeInBytes)
    else if 0 < limitBytes then
      Except.ok (MaxOfInt limitBytes MinimumVolumeSizeInBytes)
    else if 0 < requiredBytes ∧ requiredBytes > MaximumVolumeSizeInBytes then
      Except.error (ExtractStorageError.requiredExceedsMaximum requiredBytes MaximumVolumeSizeInBytes)
    else if ¬ 0 < requiredBytes ∧ 0 < limitBytes ∧ limitBytes > MaximumVolumeSizeInBytes then
      Except.error (ExtractStorageError.limitExceedsMaximum limitBytes MaximumVolumeSizeInBytes)
    else if 0 < requiredBytes ∧ 0 < limitBytes then
      Except.ok (MaxOfInt requiredBytes limitBytes)
    else if 0 < requiredBytes then
      Except.ok requiredBytes
    else if 0 < limitBytes then
      Except.ok limitBytes
    else
      Except.ok defaultVolumeSizeInBytes

/-- Sanity: a nil capacity range yields the 50 GiB default. -/
theorem extractStorage_nil : ExtractStorage none = Except.ok defaultVolumeSizeInBytes := rfl

/-- C1: whenever `requiredBytes` and `limitBytes` are both set (strictly
positive) with `requiredBytes ≤ limitBytes`, or only `limitBytes` is set,
`ExtractStorage` succeeds with `max(limitBytes, MinimumVolumeSizeInBytes)`
(`MinimumVolumeSizeInBytes` is 50 GiB); no maximum-bound check applies, so
this holds even when `limitBytes` exceeds the 32 TiB maximum. -/
theorem extractStorage_limit_set_returns_max (r l : Int)
    (h : (0 < r ∧ 0 < l ∧ r ≤ l) ∨ (¬ 0 < r ∧ 0 < l)) :
    ExtractStorage (some ⟨r, l⟩) =
      Except.ok (MaxOfInt l MinimumVolumeSizeInBytes) := by
  rcases h with ⟨hr, hl, hrl⟩ | ⟨hr, hl⟩ <;>
    simp only [ExtractStorage] <;> split_ifs <;> first | rfl | omega

/-- C1 witness: `required = 1`, `limit = 33 TiB` (above the 32 TiB
maximum) still succeeds and returns the limit. -/
theorem extractStorage_limit_set_returns_max_witness :
    (0 < (1 : Int) ∧ 0 < 33 * TiB ∧ (1 : Int) ≤ 33 * TiB) ∧
      ExtractStorage (some ⟨1, 33 * TiB⟩) = Except.ok (33 * TiB) :=
  ⟨by decide,
    (extractStorage_limit_set_returns_max 1 (33 * TiB)
      (Or.inl (by decide))).trans (by decide)⟩

/-- C2 counterexample: `requiredBytes = 33 TiB` (above the 32 TiB maximum)
with `limitBytes` unset does not fail: `ExtractStorage` returns the
required size itself, because the `requiredSet && !limitSet` branch
returns before the maximum-bound check. -/
theorem extractStorage_required_above_max_counterexample :
    33 * TiB > MaximumVolumeSizeInBytes ∧
      ExtractStorage (some ⟨33 * TiB, 0⟩) = Except.ok (33 * TiB) := by
  constructor
  · decide
  · decide

/-- C2 amended: when `requiredBytes` is set, `limitBytes` is unset and
`requiredBytes` exceeds the 32 TiB maximum, `ExtractStorage` succeeds and
returns `max(requiredBytes, MinimumVolumeSizeInBytes) = requiredBytes`;
the "required exceeds maximum supported size" branch is unreachable. -/
theorem extractStorage_required_above_max_succeeds (r l : Int)
    (hr : 0 < r) (hl : ¬ 0 < l) (hmax : MaximumVolumeSizeInBytes < r) :
    ExtractStorage (some ⟨r, l⟩) =
        Except.ok (MaxOfInt r MinimumVolumeSizeInBytes) ∧
      MaxOfInt r MinimumVolumeSizeInBytes = r := by
  constructor
  · simp only [ExtractStorage]
    split_ifs <;> first | rfl | omega
  · simp only [MaxOfInt, MinimumVolumeSizeInBytes, MaximumVolumeSizeInBytes, TiB, GiB] at *
    split_ifs <;> omega

/-- C2 amended, witness: at `required = 33 TiB`, `limit = 0`. -/
theorem extractStorage_required_above_max_succeeds_witness :
    ExtractStorage (some ⟨33 * TiB, 0⟩) = Except.ok (33 * TiB) := by
  have h := extractStorage_required_above_max_succeeds (33 * TiB) 0
    (by decide) (by decide) (by decide)
  exact h.1.trans (by rw [h.2])

/-- C3: whenever both fields are set (strictly positive) and
`limitBytes < requiredBytes`, `ExtractStorage` fails with the
limit-less-than-required error; the check precedes every size-returning
branch, so no size is ever returned in this case. -/
theorem extractStorage_limit_lt_required_errors (r l : Int)
    (hr : 0 < r) (hl : 0 < l) (hlt : l < r) :
    ExtractStorage (some ⟨r, l⟩) =
      Except.error (ExtractStorageError.limitLessThanRequired l r) := by
  simp only [ExtractStorage]
  split_ifs <;> first | rfl | omega

/-- C3 witness: the spec's own example, `required = 100 TiB`,
`limit = 50 TiB`. -/
theorem extractStorage_limit_lt_required_errors_witness :
    ExtractStorage (some ⟨100 * TiB, 50 * TiB⟩) =
      Except.error
        (ExtractStorageError.limitLessThanRequired (50 * TiB) (100 * TiB)) :=
  extractStorage_limit_lt_required_errors (100 * TiB) (50 * TiB)
    (by decide) (by decide) (by decide)

/-- C10: any non-positive field counts as unset: if both fields are `≤ 0`
(including negative values) the 50 GiB default is returned without error,
and whenever at least one field is `≤ 0` the limit-less-than-required
error can never be produced. -/
theorem extractStorage_nonpositive_is_unset (r l : Int) :
    (r ≤ 0 → l ≤ 0 →
      ExtractStorage (some ⟨r, l⟩) = Except.ok defaultVolumeSizeInBytes) ∧
    (r ≤ 0 ∨ l ≤ 0 → ∀ a b : Int,
      ExtractStorage (some ⟨r, l⟩) ≠
        Except.error (ExtractStorageError.limitLessThanRequired a b)) := by
  constructor
  · intro hr hl
    simp only [ExtractStorage]
    split_ifs <;> first | rfl | omega
  · intro h a b
    simp only [ExtractStorage]
    split_ifs <;> intro hc <;> first | exact Except.noConfusion hc | omega

/-- C10 witness: negative values in both fields give the default; a
negative limit next to a larger positive required does not trigger the
limit-less-than-required error. -/
theorem extractStorage_nonpositive_is_unset_witness :
    ExtractStorage (some ⟨-5, -7⟩) = Except.ok defaultVolumeSizeInBytes ∧
      ∀ a b : Int,
        ExtractStorage (some ⟨5, -1⟩) ≠
          Except.error (ExtractStorageError.limitLessThanRequired a b) :=
  ⟨(extractStorage_nonpositive_is_unset (-5) (-7)).1 (by decide) (by decide),
    (extractStorage_nonpositive_is_unset 5 (-1)).2 (Or.inr (by decide))⟩

/-! ## The per-volume exclusivity gate: `VolumeLocks` -/

/-- `type VolumeLocks struct { locks sets.String; mux sync.Mutex }`.
`sets.String` is a finite set of strings; the mutex only guards the
critical sections of `TryAcquire`/`Release`, so the observable semantics
is the sequential state transformation on the set. -/
structure VolumeLocks where
  locks : Finset String
deriving DecidableEq

/-- `func NewVolumeLocks() *VolumeLocks`. -/
def NewVolumeLocks : VolumeLocks := ⟨∅⟩

/-- `func (vl *VolumeLocks) TryAcquire(volumeID string) bool`, returning
the boolean together with the updated state. -/
def TryAcquire (vl : VolumeLocks) (volumeID : String) : Bool × VolumeLocks :=
  if volumeID ∈ vl.locks then (false, vl)
  else (true, ⟨insert volumeID vl.locks⟩)

/-- `func (vl *VolumeLocks) Release(volumeID string)`. -/
def Release (vl : VolumeLocks) (volumeID : String) : VolumeLocks :=
  ⟨vl.locks.erase volumeID⟩

/-- C4: `TryAcquire` succeeds and inserts exactly when the id is not held,
and otherwise fails leaving the state unchanged; a second immediate
`TryAcquire` of the same id always fails (so from a state not holding the
id the pair of results is `(true, false)`); after `Release` the id can be
acquired again; `Release` removes exactly the given id, is a no-op on an
id that is not held, and neither `Release` nor `TryAcquire` changes the
membership of any other id. -/
theorem volumeLocks_spec (vl : VolumeLocks) (id other : String)
    (hother : other ≠ id) :
    ((TryAcquire vl id).1 = true ↔ id ∉ vl.locks) ∧
    (id ∉ vl.locks → TryAcquire vl id = (true, ⟨insert id vl.locks⟩)) ∧
    (id ∈ vl.locks → TryAcquire vl id = (false, vl)) ∧
    (TryAcquire (TryAcquire vl id).2 id).1 = false ∧
    (id ∉ vl.locks →
      ((TryAcquire vl id).1, (TryAcquire (TryAcquire vl id).2 id).1) =
        (true, false)) ∧
    (TryAcquire (Release vl id) id).1 = true ∧
    (Release vl id).locks = vl.locks.erase id ∧
    id ∉ (Release vl id).locks ∧
    (id ∉ vl.locks → Release vl id = vl) ∧
    (other ∈ (Release vl id).locks ↔ other ∈ vl.locks) ∧
    (other ∈ (TryAcquire vl id).2.locks ↔ other ∈ vl.locks) := by
  refine ⟨?_, ?_, ?_, ?_, ?_, ?_, ?_, ?_, ?_, ?_, ?_⟩
  · by_cases h : id ∈ vl.locks <;> simp [TryAcquire, h]
  · intro h; simp [TryAcquire, h]
  · intro h; simp [TryAcquire, h]
  · by_cases h : id ∈ vl.locks <;> simp [TryAcquire, h]
  · intro h; simp [TryAcquire, h]
  · simp [TryAcquire, Release]
  · rfl
  · simp [Release]
  · intro h
    simp only [Release, Finset.erase_eq_of_not_mem h]
  · simp [Release, Finset.mem_erase, hother]
  · by_cases h : id ∈ vl.locks <;>
      simp [TryAcquire, h, Finset.mem_insert, hother]

/-- C4 witness: on a fresh lock set and the id `vol-1` (with `vol-2` as
the unrelated other id), acquire-then-acquire yields `(true, false)` and
after a release the id can be acquired again. -/
theorem volumeLocks_spec_witness :
    ((TryAcquire NewVolumeLocks "vol-1").1,
      (TryAcquire (TryAcquire NewVolumeLocks "vol-1").2 "vol-1").1) =
        (true, false) ∧
    (TryAcquire (Release NewVolumeLocks "vol-1") "vol-1").1 = true :=
  ⟨(volumeLocks_spec NewVolumeLocks "vol-1" "vol-2" (by decide)).2.2.2.2.1
      (by decide),
    (volumeLocks_spec NewVolumeLocks "vol-1" "vol-2" (by decide)).2.2.2.2.2.1⟩

/-! ## Go's `net.ParseIP`, `IP.To4`, `IP.To16`, `IP.String`

`utils.go` leans on the Go standard library for all address handling.
`net.ParseIP` (Go ≥ 1.17) delegates to `netip.ParseAddr`, which dispatches
on the first `.`/`:`/`%` in the input, parses dotted-quad IPv4 without
leading zeros, parses RFC 4291 IPv6 with `::` compression and optional
embedded IPv4, and rejects every zoned (`%`) address at the `net.ParseIP`
wrapper.  A successful parse is a 16-byte value (IPv4 results are stored
in IPv4-in-IPv6 mapped form).  Addresses are byte lists here. -/

def isDigitCh (c : Char) : Bool := decide ('0' ≤ c ∧ c ≤ '9')

def digitVal (c : Char) : Nat := c.toNat - '0'.toNat

/-- `parseIPv4Fields` of netip: dotted-quad scanner; `fields` are the
completed octets, `val`/`digLen` the octet being scanned. -/
def parseIPv4Fields : Str → List Nat → Nat → Nat → Option (List Nat)
  | [], fields, val, _ =>
    if fields.length = 3 then some (fields ++ [val]) else none
  | c :: rest, fields, val, digLen =>
    if isDigitCh c then
      if digLen = 1 ∧ val = 0 then none
      else
        let val2 := val * 10 + digitVal c
        if val2 > 255 then none
        else parseIPv4Fields rest fields val2 (digLen + 1)
    else if c = '.' then
      if digLen = 0 ∨ rest = [] then none
      else if fields.length = 3 then none
      else parseIPv4Fields rest (fields ++ [val]) 0 0
    else none

/-- netip's `parseIPv4`. -/
def parseIPv4Go (s : Str) : Option (List Nat) := parseIPv4Fields s [] 0 0

/-- the 12-byte IPv4-in-IPv6 mapping `v4InV6Prefix` of the net package. -/
def v4InV6Pfx : List Nat := [0, 0, 0, 0, 0, 0, 0, 0, 0, 0, 255, 255]

def hexDigitVal (c : Char) : Option Nat :=
  if isDigitCh c then some (digitVal c)
  else if decide ('a' ≤ c ∧ c ≤ 'f') then some (c.toNat - 'a'.toNat + 10)
  else if decide ('A' ≤ c ∧ c ≤ 'F') then some (c.toNat - 'A'.toNat + 10)
  else none

/-- the hex-group scanner of netip's `parseIPv6`: accumulated value,
digits consumed, remaining input; `none` on a field value ≥ 2^16. -/
def scanHexGroup : Str → Nat → Nat → Option (Nat × Nat × Str)
  | [], acc, digLen => some (acc, digLen, [])
  | s@(c :: rest), acc, digLen =>
    match hexDigitVal c with
    | some d =>
      let acc2 := acc * 16 + d
      if acc2 > 65535 then none
      else scanHexGroup rest acc2 (digLen + 1)
    | none => some (acc, digLen, s)

/-- the post-loop phase of netip's `parseIPv6`: trailing-garbage check,
`::` expansion, and the requirement that a `::` stands for at least one
zero group. -/
def v6Finish (s : Str) (bytes : List Nat) (ellipsis : Option Nat) :
    Option (List Nat) :=
  if s ≠ [] then none
  else if bytes.length < 16 then
    match ellipsis with
    | none => none
    | some e =>
      some (bytes.take e ++ List.replicate (16 - bytes.length) 0 ++ bytes.drop e)
  else if ellipsis.isSome then none
  else some bytes

/-- the group loop of netip's `parseIPv6`.  `fuel` only bounds the
recursion depth: every recursive call consumes at least two characters of
`s` (a hex digit and a colon), so `fuel = s.length + 1` can never be
exhausted before the string is (the fuel-zero branch is unreachable). -/
def v6Loop : Nat → Str → List Nat → Option Nat → Option (List Nat)
  | 0, _, _, _ => none
  | fuel + 1, s, bytes, ellipsis =>
    if 16 ≤ bytes.length then v6Finish s bytes ellipsis
    else
      match scanHexGroup s 0 0 with
      | none => none
      | some (acc, digLen, rest) =>
        if digLen = 0 then none
        else
          match rest with
          | '.' :: _ =>
            if ellipsis.isNone ∧ bytes.length ≠ 12 then none
            else if bytes.length + 4 > 16 then none
            else
              match parseIPv4Go s with
              | none => none
              | some quad => v6Finish [] (bytes ++ quad) ellipsis
          | [] => v6Finish [] (bytes ++ [acc / 256, acc % 256]) ellipsis
          | ':' :: rest2 =>
            if rest2 = [] then none
            else
              let bytes2 := bytes ++ [acc / 256, acc % 256]
              match rest2 with
              | ':' :: rest3 =>
                if ellipsis.isSome then none
                else if rest3 = [] then v6Finish [] bytes2 (some bytes2.length)
                else v6Loop fuel rest3 bytes2 (some bytes2.length)
              | _ => v6Loop fuel rest2 bytes2 ellipsis
          | _ => none

/-- netip's `parseIPv6` (zone handling happens in `parseIP` below). -/
def parseIPv6Go (s : Str) : Option (List Nat) :=
  match s with
  | ':' :: ':' :: rest =>
    if rest = [] then some (List.replicate 16 0)
    else v6Loop (rest.length + 1) rest [] (some 0)
  | _ => v6Loop (s.length + 1) s [] none

/-- `net.ParseIP`: dispatch on the first `.`/`:` (any `%`-zoned address is
rejected by the `net.parseIP` wrapper — an empty zone is a parse error and
a non-empty zone is discarded as invalid); IPv4 results are returned in
16-byte IPv4-in-IPv6 mapped form, exactly as `net.ParseIP` does. -/
def parseIP (s : Str) : Option (List Nat) :=
  if s.contains '%' then none
  else
    match s.find? (fun c => c == '.' || c == ':') with
    | some c =>
      if c = '.' then (parseIPv4Go s).map (fun q => v4InV6Pfx ++ q)
      else parseIPv6Go s
    | none => none

/-- `func (ip IP) To4() IP` on a parse result; `nil.To4()` is nil. -/
def ipTo4 : Option (List Nat) → Option (List Nat)
  | none => none
  | some b =>
    if b.length = 4 then some b
    else if b.length = 16 ∧ b.take 12 = v4InV6Pfx then some (b.drop 12)
    else none

/-- `func (ip IP) To16() IP` on a parse result; `nil.To16()` is nil. -/
def ipTo16 : Option (List Nat) → Option (List Nat)
  | none => none
  | some b =>
    if b.length = 4 then some (v4InV6Pfx ++ b)
    else if b.length = 16 then some b
    else none

def hexDigitChar (n : Nat) : Char :=
  if n < 10 then Char.ofNat ('0'.toNat + n) else Char.ofNat ('a'.toNat + n - 10)

/-- Go's `appendHex`: lowercase, no leading zeros (group values < 2^16). -/
def hexGroupStr (n : Nat) : Str :=
  if 4096 ≤ n then
    [hexDigitChar (n / 4096), hexDigitChar (n / 256 % 16),
      hexDigitChar (n / 16 % 16), hexDigitChar (n % 16)]
  else if 256 ≤ n then
    [hexDigitChar (n / 256 % 16), hexDigitChar (n / 16 % 16), hexDigitChar (n % 16)]
  else if 16 ≤ n then
    [hexDigitChar (n / 16 % 16), hexDigitChar (n % 16)]
  else
    [hexDigitChar (n % 16)]

/-- Go's `uitoa` on a byte value, for the dotted-quad printer. -/
def decByteStr (n : Nat) : Str :=
  if 100 ≤ n then
    [Char.ofNat ('0'.toNat + n / 100), Char.ofNat ('0'.toNat + n / 10 % 10),
      Char.ofNat ('0'.toNat + n % 10)]
  else if 10 ≤ n then
    [Char.ofNat ('0'.toNat + n / 10), Char.ofNat ('0'.toNat + n % 10)]
  else
    [Char.ofNat ('0'.toNat + n)]

/-- 16-bit groups of a byte list. -/
def bytePairs : List Nat → List Nat
  | a :: b :: t => (a * 256 + b) :: bytePairs t
  | _ => []

/-- length of the zero-group run starting at the head. -/
def zeroRunLen : List Nat → Nat
  | 0 :: t => zeroRunLen t + 1
  | _ => 0

/-- the first-longest zero run `(start, length)` (ties to the earliest),
matching the strict-inequality update of the run scan in `IP.String`. -/
def bestZeroRun : List Nat → Nat → Option (Nat × Nat)
  | [], _ => none
  | g@(_ :: t), i =>
    let r := zeroRunLen g
    match bestZeroRun t (i + 1) with
    | some (s2, l2) => if l2 ≤ r ∧ 1 ≤ r then some (i, r) else some (s2, l2)
    | none => if 1 ≤ r then some (i, r) else none

def joinColon : List Str → Str
  | [] => []
  | [x] => x
  | x :: xs => x ++ ':' :: joinColon xs

/-- the RFC 5952 body of `IP.String` for a 16-byte address: compress the
first longest run of two or more zero groups. -/
def v6CanonStr (b : List Nat) : Str :=
  let g := bytePairs b
  let best :=
    match bestZeroRun g 0 with
    | some (s2, l2) => if l2 ≤ 1 then none else some (s2, l2)
    | none => none
  match best with
  | none => joinColon (g.map hexGroupStr)
  | some (s2, l2) =>
    joinColon ((g.take s2).map hexGroupStr) ++
      ':' :: ':' :: joinColon ((g.drop (s2 + l2)).map hexGroupStr)

/-- the raw hex dump of the `"?"` branch of `IP.String`. -/
def rawHexStr : List Nat → Str
  | [] => []
  | x :: t => hexDigitChar (x / 16 % 16) :: hexDigitChar (x % 16) :: rawHexStr t

/-- `func (ip IP) String() string`. -/
def ipString (b : List Nat) : Str :=
  if b = [] then toStr "<nil>"
  else
    match ipTo4 (some b) with
    | some (p0 :: p1 :: p2 :: p3 :: _) =>
      decByteStr p0 ++ '.' :: decByteStr p1 ++ '.' :: decByteStr p2 ++
        '.' :: decByteStr p3
    | _ => if b.length ≠ 16 then '?' :: rawHexStr b else v6CanonStr b

/-- Sanity: dotted-quad parsing, mapped form, and `To4`. -/
theorem parseIP_v4_example :
    parseIP (toStr "203.0.113.5") = some (v4InV6Pfx ++ [203, 0, 113, 5]) ∧
    ipTo4 (parseIP (toStr "203.0.113.5")) = some [203, 0, 113, 5] := by
  constructor <;> decide

/-- Sanity: leading zeros, out-of-range octets, bad shapes and zones are
rejected; the empty string is rejected. -/
theorem parseIP_reject_examples :
    parseIP (toStr "01.2.3.4") = none ∧
    parseIP (toStr "256.1.1.1") = none ∧
    parseIP (toStr "1.2.3") = none ∧
    parseIP (toStr "1.2.3.4.5") = none ∧
    parseIP (toStr "fe80::1%eth0") = none ∧
    parseIP (toStr "no-colons-here") = none ∧
    parseIP [] = none := by
  refine ⟨?_, ?_, ?_, ?_, ?_, ?_, ?_⟩ <;> decide

/-- Sanity: IPv6 parsing with `::` compression, embedded IPv4, and the
iSCSI prefix constant. -/
theorem parseIP_v6_examples :
    parseIP (toStr "fd00:00c1::") =
      some [0xfd, 0, 0, 0xc1, 0, 0, 0, 0, 0, 0, 0, 0, 0, 0, 0, 0] ∧
    parseIP (toStr "fd00:00c1::a9fe:202") =
      some [0xfd, 0, 0, 0xc1, 0, 0, 0, 0, 0, 0, 0, 0, 0xa9, 0xfe, 2, 2] ∧
    ipTo4 (parseIP (toStr "::ffff:1.2.3.4")) = some [1, 2, 3, 4] ∧
    parseIP (toStr "::1") =
      some [0, 0, 0, 0, 0, 0, 0, 0, 0, 0, 0, 0, 0, 0, 0, 1] ∧
    parseIP (toStr "1::2::3") = none ∧
    parseIP (toStr "1:2:3:4:5:6:7") = none := by
  refine ⟨?_, ?_, ?_, ?_, ?_, ?_⟩ <;> decide

/-- Sanity: the canonical printer compresses the leftmost longest zero
run and prints lowercase groups without leading zeros. -/
theorem ipString_examples :
    ipString [0xfd, 0, 0, 0xc1, 0, 0, 0, 0, 0, 0, 0, 0, 0xcb, 0, 0x71, 5] =
      toStr "fd00:c1::cb00:7105" ∧
    ipString (v4InV6Pfx ++ [203, 0, 113, 5]) = toStr "203.0.113.5" ∧
    ipString (List.replicate 16 0) = toStr "::" := by
  refine ⟨?_, ?_, ?_⟩ <;> decide

/-! ## iSCSI IPv4-to-IPv6 synthesis -/

/-- `IscsiIpv6Prefix = "fd00:00c1::"`. -/
def IscsiIpv6Prefix : Str := toStr "fd00:00c1::"

/-- The 128-bit value built by `ConvertIscsiIpFromIpv4ToIpv6`:
`net.ParseIP(IscsiIpv6Prefix).To16()` with `copy(bytes[12:], quad)`
overwriting the low four bytes with the IPv4 octets. -/
def iscsiIpv6Bytes (quad : List Nat) : List Nat :=
  match ipTo16 (parseIP IscsiIpv6Prefix) with
  | some pfxBytes => pfxBytes.take 12 ++ quad
  | none => quad

/-- `func ConvertIscsiIpFromIpv4ToIpv6(ipv4IscsiIp string) (string, error)`. -/
def ConvertIscsiIpFromIpv4ToIpv6 (ipv4IscsiIp : Str) : Except Str Str :=
  match ipTo4 (parseIP ipv4IscsiIp) with
  | none => Except.error (toStr "invalid iSCSIIp identified " ++ ipv4IscsiIp)
  | some quad => Except.ok (ipString (iscsiIpv6Bytes quad))

/-- Sanity: the prefix constant expands to the expected 16 bytes. -/
theorem iscsiIpv6Bytes_eq (quad : List Nat) :
    iscsiIpv6Bytes quad =
      [0xfd, 0x00, 0x00, 0xc1, 0, 0, 0, 0, 0, 0, 0, 0] ++ quad := rfl

/-- C5: `ConvertIscsiIpFromIpv4ToIpv6` is a function (hence
deterministic); on every string that parses as IPv4 (`ParseIP`/`To4`
succeeds with octets `quad`) it succeeds with the rendering of the
128-bit address whose upper 96 bits are the fixed prefix `fd00:00c1::`
and whose low 32 bits are the four IPv4 octets; that octets-to-address
mapping is injective (invertible given the prefix); and on every string
that does not parse as IPv4 it returns an error. -/
theorem convertIscsiIp_spec (s : Str) :
    (∀ quad, ipTo4 (parseIP s) = some quad →
      ConvertIscsiIpFromIpv4ToIpv6 s =
          Except.ok (ipString (iscsiIpv6Bytes quad)) ∧
        (iscsiIpv6Bytes quad).take 12 =
          [0xfd, 0x00, 0x00, 0xc1, 0, 0, 0, 0, 0, 0, 0, 0] ∧
        (iscsiIpv6Bytes quad).drop 12 = quad) ∧
    (ipTo4 (parseIP s) = none →
      ConvertIscsiIpFromIpv4ToIpv6 s =
        Except.error (toStr "invalid iSCSIIp identified " ++ s)) ∧
    (∀ q1 q2, iscsiIpv6Bytes q1 = iscsiIpv6Bytes q2 → q1 = q2) := by
  refine ⟨?_, ?_, ?_⟩
  · intro quad h
    refine ⟨?_, ?_, ?_⟩
    · simp only [ConvertIscsiIpFromIpv4ToIpv6, h]
    · rw [iscsiIpv6Bytes_eq]
      rfl
    · rw [iscsiIpv6Bytes_eq]
      rfl
  · intro h
    simp only [ConvertIscsiIpFromIpv4ToIpv6, h]
  · intro q1 q2 h
    rw [iscsiIpv6Bytes_eq, iscsiIpv6Bytes_eq] at h
    exact List.append_cancel_left h

/-- C5 witness: `203.0.113.5` parses as IPv4 and synthesizes
`fd00:c1::cb00:7105` (the canonical rendering of
`fd00:00c1::` with low bytes `cb 00 71 05`). -/
theorem convertIscsiIp_spec_witness :
    ipTo4 (parseIP (toStr "203.0.113.5")) = some [203, 0, 113, 5] ∧
    ConvertIscsiIpFromIpv4ToIpv6 (toStr "203.0.113.5") =
      Except.ok (toStr "fd00:c1::cb00:7105") :=
  ⟨by decide,
    (((convertIscsiIp_spec (toStr "203.0.113.5")).1 [203, 0, 113, 5]
        (by decide)).1).trans (by decide)⟩

/-! ## DNS validation, `strings.Index`/`LastIndex`/`Trim`, and
`ValidateFssId` -/

def splitOnChar (c : Char) : Str → List Str
  | [] => [[]]
  | x :: xs =>
    if x = c then [] :: splitOnChar c xs
    else
      match splitOnChar c xs with
      | r :: rs => (x :: r) :: rs
      | [] => [[x]]

def isAlphaNumCh (c : Char) : Bool :=
  decide (('a' ≤ c ∧ c ≤ 'z') ∨ ('A' ≤ c ∧ c ≤ 'Z') ∨ ('0' ≤ c ∧ c ≤ '9'))

def isAlphaCh (c : Char) : Bool :=
  decide (('a' ≤ c ∧ c ≤ 'z') ∨ ('A' ≤ c ∧ c ≤ 'Z'))

/-- one inner label of the DNS pattern, `[a-zA-Z0-9]+(-[a-zA-Z0-9]+)*`:
nonempty alphanumeric runs joined by single hyphens. -/
def dnsLabelOk (l : Str) : Bool :=
  (splitOnChar '-' l).all (fun p => !p.isEmpty && p.all isAlphaNumCh)

/-- `func ValidateDNSName(name string) bool`: whether the anchored RE2
pattern `^([a-zA-Z0-9]+(-[a-zA-Z0-9]+)*\.)+[a-zA-Z]{2,}$` matches.
Labels cannot contain a dot, so a match exists exactly when the dot-split
has at least two parts, every part but the last matches the label
sub-pattern, and the last part is two or more letters. -/
def ValidateDNSName (name : Str) : Bool :=
  let parts := splitOnChar '.' name
  decide (2 ≤ parts.length) && parts.dropLast.all dnsLabelOk &&
    decide (2 ≤ (parts.getLastD []).length) && (parts.getLastD []).all isAlphaCh

/-- `strings.Trim(s, "[]")`: remove every leading and trailing `[` or `]`. -/
def trimBrackets (s : Str) : Str :=
  ((s.dropWhile fun c => c == '[' || c == ']').reverse.dropWhile
    (fun c => c == '[' || c == ']')).reverse

def strIndexAux (c : Char) : Str → Option Nat
  | [] => none
  | x :: xs => if x = c then some 0 else (strIndexAux c xs).map (· + 1)

def strLastIndexAux (c : Char) : Str → Option Nat
  | [] => none
  | x :: xs =>
    match strLastIndexAux c xs with
    | some n => some (n + 1)
    | none => if x = c then some 0 else none

/-- `strings.Index(s, c)` for a single-character separator: first index
or `-1`. -/
def strIndex (s : Str) (c : Char) : Int :=
  match strIndexAux c s with
  | some n => n
  | none => -1

/-- `strings.LastIndex(s, c)` for a single-character separator. -/
def strLastIndex (s : Str) (c : Char) : Int :=
  match strLastIndexAux c s with
  | some n => n
  | none => -1

/-- `type FSSVolumeHandler struct`. -/
structure FSSVolumeHandler where
  FilesystemOcid : Str
  MountTargetIPAddress : Str
  FsExportPath : Str
deriving DecidableEq, Repr

/-- the `&FSSVolumeHandler{"", "", ""}` default. -/
def emptyHandler : FSSVolumeHandler := ⟨[], [], []⟩

/-- the acceptance test `ValidateFssId` applies to the middle segment:
`net.ParseIP(strings.Trim(candidate, "[]")) != nil ||
ValidateDNSName(candidate)`. -/
def fssMiddleValid (candidate : Str) : Bool :=
  (parseIP (trimBrackets candidate)).isSome || ValidateDNSName candidate

/-- `func ValidateFssId(id string) *FSSVolumeHandler`.  Total by
construction: every input yields a handler, never an error. -/
def ValidateFssId (id : Str) : FSSVolumeHandler :=
  if id = [] then emptyHandler
  else
    let firstColon := strIndex id ':'
    let lastColon := strLastIndex id ':'
    if 0 < firstColon ∧ lastColon < (id.length : Int) - 1 ∧
        firstColon ≠ lastColon then
      let candidate := (id.take lastColon.toNat).drop (firstColon.toNat + 1)
      if fssMiddleValid candidate then
        ⟨id.take firstColon.toNat, candidate, id.drop (lastColon.toNat + 1)⟩
      else emptyHandler
    else emptyHandler

/-- `func FormatValidIp(ipAddress string) string`. -/
def FormatValidIp (ipAddress : Str) : Str :=
  if (ipTo4 (parseIP ipAddress)).isSome then ipAddress
  else if (ipTo16 (parseIP ipAddress)).isSome then
    '[' :: trimBrackets ipAddress ++ [']']
  else ipAddress

/-- the spec's round-trip serialization: join the three fields with
colons, re-bracketing the address through `FormatValidIp`. -/
def serializeHandler (h : FSSVolumeHandler) : Str :=
  h.FilesystemOcid ++
    ':' :: (FormatValidIp h.MountTargetIPAddress ++ ':' :: h.FsExportPath)

theorem strIndexAux_drop {c : Char} {s : Str} {n : Nat}
    (h : strIndexAux c s = some n) :
    n < s.length ∧ s.drop n = c :: s.drop (n + 1) := by
  induction s generalizing n with
  | nil => exact absurd h (by simp [strIndexAux])
  | cons x xs ih =>
    by_cases hx : x = c
    · simp only [strIndexAux, if_pos hx, Option.some.injEq] at h
      subst hx
      simp [← h]
    · simp only [strIndexAux, if_neg hx, Option.map_eq_some'] at h
      obtain ⟨m, hm, hmn⟩ := h
      obtain ⟨h1, h2⟩ := ih hm
      subst hmn
      refine ⟨by simpa using Nat.succ_lt_succ h1, ?_⟩
      simpa using h2

theorem strLastIndexAux_drop {c : Char} {s : Str} {n : Nat}
    (h : strLastIndexAux c s = some n) :
    n < s.length ∧ s.drop n = c :: s.drop (n + 1) := by
  induction s generalizing n with
  | nil => exact absurd h (by simp [strLastIndexAux])
  | cons x xs ih =>
    simp only [strLastIndexAux] at h
    rcases hxs : strLastIndexAux c xs with _ | m
    · rw [hxs] at h
      by_cases hx : x = c
      · rw [if_pos hx] at h
        injection h with h
        subst h
        subst hx
        simp
      · rw [if_neg hx] at h
        cases h
    · rw [hxs] at h
      injection h with h
      obtain ⟨h1, h2⟩ := ih hxs
      subst h
      refine ⟨by simpa using Nat.succ_lt_succ h1, ?_⟩
      simpa using h2

theorem strIndexAux_le_strLastIndexAux {c : Char} {s : Str} {n m : Nat}
    (hf : strIndexAux c s = some n) (hl : strLastIndexAux c s = some m) :
    n ≤ m := by
  induction s generalizing n m with
  | nil => exact absurd hf (by simp [strIndexAux])
  | cons x xs ih =>
    by_cases hx : x = c
    · simp only [strIndexAux, if_pos hx, Option.some.injEq] at hf
      omega
    · simp only [strIndexAux, if_neg hx, Option.map_eq_some'] at hf
      obtain ⟨n', hn', rfl⟩ := hf
      simp only [strLastIndexAux] at hl
      rcases hxs : strLastIndexAux c xs with _ | m'
      · rw [hxs, if_neg hx] at hl
        cases hl
      · rw [hxs] at hl
        injection hl with hl
        subst hl
        exact Nat.succ_le_succ (ih hn' hxs)

theorem decomp_of_indices {s : Str} {f l : Nat} (hfl : f < l)
    (hfd : s.drop f = ':' :: s.drop (f + 1)) (hll : l < s.length)
    (hld : s.drop l = ':' :: s.drop (l + 1)) :
    s = s.take f ++ ':' :: ((s.take l).drop (f + 1) ++ ':' :: s.drop (l + 1)) := by
  have h3 : s.drop (f + 1) = (s.take l).drop (f + 1) ++ s.drop l := by
    conv_lhs => rw [← List.take_append_drop l s]
    rw [List.drop_append_eq_append_drop]
    have hlen : (s.take l).length = l := by
      rw [List.length_take]
      omega
    rw [hlen]
    have hz : f + 1 - l = 0 := by omega
    rw [hz, List.drop_zero]
  calc s = s.take f ++ s.drop f := (List.take_append_drop f s).symm
    _ = s.take f ++ ':' :: s.drop (f + 1) := by rw [hfd]
    _ = s.take f ++ ':' :: ((s.take l).drop (f + 1) ++ s.drop l) := by
        rw [← h3]
    _ = s.take f ++ ':' :: ((s.take l).drop (f + 1) ++ ':' :: s.drop (l + 1)) := by
        rw [hld]

theorem strLastIndexAux_none {c : Char} {s : Str}
    (h : strLastIndexAux c s = none) : strIndexAux c s = none := by
  induction s with
  | nil => rfl
  | cons x xs ih =>
    simp only [strLastIndexAux] at h
    rcases hxs : strLastIndexAux c xs with _ | m
    · rw [hxs] at h
      by_cases hx : x = c
      · rw [if_pos hx] at h
        cases h
      · simp only [strIndexAux, if_neg hx, ih hxs, Option.map_none']
    · rw [hxs] at h
      cases h

/-- Every accepted `ValidateFssId` input decomposes around its first and
last colons, and the result is exactly the three slices. -/
theorem validateFssId_accept {id : Str}
    (hne : ValidateFssId id ≠ emptyHandler) :
    ∃ f l : Nat, strIndexAux ':' id = some f ∧ strLastIndexAux ':' id = some l ∧
      0 < f ∧ l + 1 < id.length ∧ f < l ∧
      fssMiddleValid ((id.take l).drop (f + 1)) = true ∧
      ValidateFssId id =
        ⟨id.take f, (id.take l).drop (f + 1), id.drop (l + 1)⟩ ∧
      id = id.take f ++ ':' :: ((id.take l).drop (f + 1) ++ ':' :: id.drop (l + 1)) := by
  by_cases hid : id = []
  · exact absurd (by simp [ValidateFssId, hid]) hne
  rcases hfa : strIndexAux ':' id with _ | f
  · have hneg : strIndex id ':' = -1 := by simp [strIndex, hfa]
    exact absurd (by simp [ValidateFssId, hid, hneg]) hne
  rcases hla : strLastIndexAux ':' id with _ | l
  · rw [strLastIndexAux_none hla] at hfa
    cases hfa
  have hfi : strIndex id ':' = (f : Int) := by simp [strIndex, hfa]
  have hli : strLastIndex id ':' = (l : Int) := by simp [strLastIndex, hla]
  obtain ⟨hfb, hfd⟩ := strIndexAux_drop hfa
  obtain ⟨hlb, hld⟩ := strLastIndexAux_drop hla
  have hle := strIndexAux_le_strLastIndexAux hfa hla
  by_cases hcond : 0 < (f : Int) ∧ (l : Int) < (id.length : Int) - 1 ∧
      (f : Int) ≠ (l : Int)
  case neg =>
    refine absurd ?_ hne
    simp only [ValidateFssId, if_neg hid, hfi, hli]
    rw [if_neg hcond]
  obtain ⟨h1, h2, h3⟩ := hcond
  have hf0 : 0 < f := by exact_mod_cast h1
  have hl1 : l + 1 < id.length := by omega
  have hfl : f < l := by
    have hne2 : f ≠ l := fun he => h3 (by exact_mod_cast he)
    omega
  have htn1 : ((f : Int)).toNat = f := by omega
  have htn2 : ((l : Int)).toNat = l := by omega
  have hres : ValidateFssId id =
      if fssMiddleValid ((id.take l).drop (f + 1)) then
        (⟨id.take f, (id.take l).drop (f + 1), id.drop (l + 1)⟩ : FSSVolumeHandler)
      else emptyHandler := by
    simp only [ValidateFssId, if_neg hid, hfi, hli, htn1, htn2]
    rw [if_pos ⟨h1, h2, h3⟩]
  by_cases hmid : fssMiddleValid ((id.take l).drop (f + 1)) = true
  case neg =>
    rw [hres, if_neg (by simpa using hmid)] at hne
    exact absurd rfl hne
  refine ⟨f, l, rfl, rfl, hf0, hl1, hfl, hmid, ?_, ?_⟩
  · rw [hres, if_pos hmid]
  · exact decomp_of_indices hfl hfd hlb hld

/-- C6 counterexample: on the spec's own bracketed-IPv6 example the
returned `mountTargetAddress` keeps the enclosing square brackets — it is
the middle segment as written, not the unbracketed candidate. -/
theorem validateFssId_unbracketed_counterexample :
    ValidateFssId
        (toStr "ocid1.filesystem.oc1..xxxx:[fd00:00c1::a9fe:202]:/export/path") =
      ⟨toStr "ocid1.filesystem.oc1..xxxx", toStr "[fd00:00c1::a9fe:202]",
        toStr "/export/path"⟩ ∧
    toStr "[fd00:00c1::a9fe:202]" ≠
      trimBrackets (toStr "[fd00:00c1::a9fe:202]") := by
  constructor
  · decide
  · decide

/-- C6 amended: for every input accepted by `ValidateFssId` (first colon
at a positive index, last colon not final, first and last colons
distinct, middle segment valid as an IP literal after bracket-trimming or
as a DNS name), the handle is `filesystemId` = text before the first
colon, `mountTargetAddress` = the middle segment exactly as written
(brackets retained; trimming is only used for the validity test), and
`exportPath` = text after the last colon. -/
theorem validateFssId_fields (id : Str) (f l : Int)
    (hfi : strIndex id ':' = f) (hli : strLastIndex id ':' = l)
    (h1 : 0 < f) (h2 : l < (id.length : Int) - 1) (h3 : f ≠ l)
    (h4 : fssMiddleValid ((id.take l.toNat).drop (f.toNat + 1)) = true) :
    ValidateFssId id =
      ⟨id.take f.toNat, (id.take l.toNat).drop (f.toNat + 1),
        id.drop (l.toNat + 1)⟩ := by
  have hid : id ≠ [] := by
    intro hn
    subst hn
    simp [strIndex, strIndexAux] at hfi
    omega
  simp only [ValidateFssId, if_neg hid, hfi, hli]
  rw [if_pos ⟨h1, h2, h3⟩, if_pos h4]

/-- C6 amended, witness: a bracketed IPv6 middle segment is accepted and
returned with its brackets. -/
theorem validateFssId_fields_witness :
    ValidateFssId (toStr "a:[fd00::]:/p") =
      ⟨toStr "a", toStr "[fd00::]", toStr "/p"⟩ :=
  (validateFssId_fields (toStr "a:[fd00::]:/p") 1 10 (by decide) (by decide)
    (by decide) (by decide) (by decide) (by decide)).trans (by decide)

/-- C7: `ValidateFssId` is total (it returns a handler for every input —
the Go function has no error return): the result is either the all-empty
handle or has all three fields non-empty, in which case the input is
exactly the three fields rejoined with the two delimiting colons; and the
empty string and `no-colons-here` both give the all-empty handle. -/
theorem validateFssId_total (id : Str) :
    (ValidateFssId id = emptyHandler ∨
      ((ValidateFssId id).FilesystemOcid ≠ [] ∧
        (ValidateFssId id).MountTargetIPAddress ≠ [] ∧
        (ValidateFssId id).FsExportPath ≠ [] ∧
        id = (ValidateFssId id).FilesystemOcid ++
          ':' :: ((ValidateFssId id).MountTargetIPAddress ++
            ':' :: (ValidateFssId id).FsExportPath))) ∧
    ValidateFssId [] = emptyHandler ∧
    ValidateFssId (toStr "no-colons-here") = emptyHandler := by
  refine ⟨?_, rfl, by decide⟩
  by_cases hne : ValidateFssId id = emptyHandler
  · exact Or.inl hne
  obtain ⟨f, l, hfa, hla, hf0, hl1, hfl, hmid, hres, hdec⟩ :=
    validateFssId_accept hne
  obtain ⟨hfb, _⟩ := strIndexAux_drop hfa
  right
  rw [hres]
  dsimp only
  refine ⟨?_, ?_, ?_, hdec⟩
  · intro hnil
    have hlen : (id.take f).length = f := by
      rw [List.length_take]
      omega
    rw [hnil] at hlen
    simp at hlen
    omega
  · intro hnil
    rw [hnil] at hmid
    exact absurd hmid (by decide)
  · intro hnil
    have hlen : (id.drop (l + 1)).length = id.length - (l + 1) :=
      List.length_drop _ _
    rw [hnil] at hlen
    simp at hlen
    omega

/-- C8 counterexample: `a:fd00:::/p` is accepted with the bare IPv6
middle `fd00::`; serialization re-brackets it, so re-parsing returns
`[fd00::]` as the address — the round trip does not reproduce the
original three fields. -/
theorem serializeRoundTrip_counterexample :
    ValidateFssId (toStr "a:fd00:::/p") =
      ⟨toStr "a", toStr "fd00::", toStr "/p"⟩ ∧
    ValidateFssId (serializeHandler (ValidateFssId (toStr "a:fd00:::/p"))) ≠
      ValidateFssId (toStr "a:fd00:::/p") := by
  constructor
  · decide
  · decide

/-- C8 amended: for every input accepted by `ValidateFssId` whose
returned `mountTargetAddress` is left unchanged by `FormatValidIp`
(IPv4 literals, DNS names and already-bracketed IPv6 literals — i.e.
everything except a bare unbracketed IPv6 literal, which gets
re-bracketed), joining the three returned fields with colons after
passing the address through `FormatValidIp` and re-parsing reproduces
exactly the same three fields; the all-empty handle is a fixed point of
this serialize-then-parse round trip. -/
theorem serializeRoundTrip (id : Str) (h : FSSVolumeHandler)
    (hacc : ValidateFssId id = h) (hne : h ≠ emptyHandler)
    (hfmt : FormatValidIp h.MountTargetIPAddress = h.MountTargetIPAddress) :
    ValidateFssId (serializeHandler h) = h ∧
    ValidateFssId (serializeHandler emptyHandler) = emptyHandler := by
  refine ⟨?_, by decide⟩
  have hne2 : ValidateFssId id ≠ emptyHandler := by
    rw [hacc]
    exact hne
  obtain ⟨f, l, _, _, _, _, _, _, hres, hdec⟩ := validateFssId_accept hne2
  have hh : h = ⟨id.take f, (id.take l).drop (f + 1), id.drop (l + 1)⟩ :=
    hacc.symm.trans hres
  have hser : serializeHandler h = id := by
    rw [hh] at hfmt ⊢
    dsimp only [serializeHandler] at hfmt ⊢
    rw [hfmt]
    exact hdec.symm
  rw [hser, hacc]

/-- C8 amended, witness: the spec's IPv4 example round-trips exactly. -/
theorem serializeRoundTrip_witness :
    ValidateFssId (serializeHandler
        ⟨toStr "ocid1.filesystem.oc1..xxxx", toStr "10.0.0.5",
          toStr "/export/path"⟩) =
      ⟨toStr "ocid1.filesystem.oc1..xxxx", toStr "10.0.0.5",
        toStr "/export/path"⟩ :=
  (serializeRoundTrip
    (toStr "ocid1.filesystem.oc1..xxxx:10.0.0.5:/export/path")
    ⟨toStr "ocid1.filesystem.oc1..xxxx", toStr "10.0.0.5",
      toStr "/export/path"⟩
    (by decide) (by decide) (by decide)).1

/-! ## Node IP-family resolution -/

def Ipv4Stack : String := "IPv4"

def Ipv6Stack : String := "IPv6"

def LabelIpFamilyPreferred : String := "oci.oraclecloud.com/ip-family-preferred"

def LabelIpFamilyIpv4 : String := "oci.oraclecloud.com/ip-family-ipv4"

def LabelIpFamilyIpv6 : String := "oci.oraclecloud.com/ip-family-ipv6"

def lowerAscii (c : Char) : Char :=
  if 'A' ≤ c ∧ c ≤ 'Z' then Char.ofNat (c.toNat + 32) else c

/-- `strings.EqualFold`, for the comparisons made in this file.  Go folds
runes by Unicode `SimpleFold`; the only fold orbits joining an ASCII
letter to a non-ASCII rune are `k`/`K`/U+212A and `s`/`S`/U+017F, and the
constants compared against here (`true`, `IPv4`, `IPv6`) contain neither
`k` nor `s`, so ASCII case folding agrees with Go on every input. -/
def EqualFold (a b : String) : Bool :=
  a.data.map lowerAscii == b.data.map lowerAscii

/-- `func FormatValidIpStackInK8SConvention(ipStack string) string`. -/
def FormatValidIpStackInK8SConvention (ipStack : String) : String :=
  if EqualFold ipStack Ipv4Stack then Ipv4Stack
  else if EqualFold ipStack Ipv6Stack then Ipv6Stack
  else ipStack

/-- `type NodeIpFamily struct`. -/
structure NodeIpFamily where
  PreferredNodeIpFamily : String
  Ipv4Enabled : Bool
  Ipv6Enabled : Bool
deriving DecidableEq, Repr

/-- Go map lookup on the node's label mapping (map keys are unique). -/
def labelLookup (labels : List (String × String)) (key : String) :
    Option String :=
  (labels.find? (fun kv => kv.1 == key)).map (fun kv => kv.2)

/-- `func GetNodeIpFamily(...)`: the label-decision core.  The Kubernetes
API fetch is an external collaborator — `labels` is `n.Labels` (`none`
models a nil map), and the API-error path returns before this logic. -/
def GetNodeIpFamily (labels : Option (List (String × String))) :
    NodeIpFamily :=
  let nodeIpFamily : NodeIpFamily :=
    match labels with
    | none => ⟨"", false, false⟩
    | some ls =>
      ⟨match labelLookup ls LabelIpFamilyPreferred with
        | some preferredIpFamily =>
          FormatValidIpStackInK8SConvention preferredIpFamily
        | none => "",
      match labelLookup ls LabelIpFamilyIpv4 with
        | some v => EqualFold v "true"
        | none => false,
      match labelLookup ls LabelIpFamilyIpv6 with
        | some v => EqualFold v "true"
        | none => false⟩
  if nodeIpFamily.Ipv4Enabled = false ∧ nodeIpFamily.Ipv6Enabled = false then
    ⟨Ipv4Stack, true, nodeIpFamily.Ipv6Enabled⟩
  else nodeIpFamily

/-- whether a boolean-valued node label is present and case-insensitively
`true` (absent labels count as false, as in the Go conditionals). -/
def labelBoolValue (labels : Option (List (String × String)))
    (key : String) : Bool :=
  match labels with
  | none => false
  | some ls =>
    match labelLookup ls key with
    | some v => EqualFold v "true"
    | none => false

/-- the preferred-family value the Go code derives from the label map
before defaulting: the preferred label's value normalized by
`FormatValidIpStackInK8SConvention`, or `""` when absent. -/
def labelPreferredValue (labels : Option (List (String × String))) : String :=
  match labels with
  | none => ""
  | some ls =>
    match labelLookup ls LabelIpFamilyPreferred with
    | some v => FormatValidIpStackInK8SConvention v
    | none => ""

/-- `GetNodeIpFamily` as a decision table over the three label values. -/
theorem getNodeIpFamily_base (labels : Option (List (String × String))) :
    GetNodeIpFamily labels =
      if labelBoolValue labels LabelIpFamilyIpv4 = false ∧
          labelBoolValue labels LabelIpFamilyIpv6 = false then
        ⟨Ipv4Stack, true, labelBoolValue labels LabelIpFamilyIpv6⟩
      else
        ⟨labelPreferredValue labels,
          labelBoolValue labels LabelIpFamilyIpv4,
          labelBoolValue labels LabelIpFamilyIpv6⟩ := by
  cases labels <;> rfl

/-- C9: if neither the ipv4-enabled nor the ipv6-enabled label is
case-insensitively `true` (including when labels are absent), the result
is exactly `{preferred: IPv4, ipv4Enabled: true, ipv6Enabled: false}`,
regardless of any preferred-family label value; otherwise each enabled
flag is true iff its label is case-insensitively `true` and the preferred
family is taken from the preferred label (normalized to the `IPv4`/`IPv6`
spelling, `""` when absent). -/
theorem getNodeIpFamily_spec (labels : Option (List (String × String))) :
    (labelBoolValue labels LabelIpFamilyIpv4 = false →
      labelBoolValue labels LabelIpFamilyIpv6 = false →
      GetNodeIpFamily labels = ⟨Ipv4Stack, true, false⟩) ∧
    (labelBoolValue labels LabelIpFamilyIpv4 = true ∨
        labelBoolValue labels LabelIpFamilyIpv6 = true →
      GetNodeIpFamily labels =
        ⟨labelPreferredValue labels,
          labelBoolValue labels LabelIpFamilyIpv4,
          labelBoolValue labels LabelIpFamilyIpv6⟩) := by
  constructor
  · intro h4 h6
    rw [getNodeIpFamily_base, if_pos ⟨h4, h6⟩, h6]
  · intro h
    have hcond : ¬ (labelBoolValue labels LabelIpFamilyIpv4 = false ∧
        labelBoolValue labels LabelIpFamilyIpv6 = false) := by
      rcases h with h | h <;> simp [h]
    rw [getNodeIpFamily_base, if_neg hcond]

/-- C9 witness: a lone preferred label (no enabled labels) still defaults
to `{IPv4, true, false}`; an ipv6-enabled label spelled `TRUE` with a
preferred label spelled `ipv6` yields `{IPv6, false, true}`. -/
theorem getNodeIpFamily_spec_witness :
    GetNodeIpFamily (some [(LabelIpFamilyPreferred, "IPv6")]) =
      ⟨Ipv4Stack, true, false⟩ ∧
    GetNodeIpFamily (some [(LabelIpFamilyIpv6, "TRUE"),
        (LabelIpFamilyPreferred, "ipv6")]) =
      ⟨Ipv6Stack, false, true⟩ :=
  ⟨(getNodeIpFamily_spec (some [(LabelIpFamilyPreferred, "IPv6")])).1
      (by decide) (by decide),
    ((getNodeIpFamily_spec (some [(LabelIpFamilyIpv6, "TRUE"),
        (LabelIpFamilyPreferred, "ipv6")])).2 (Or.inr (by decide))).trans
      (by decide)⟩
